import Mathlib

/-!
Shallow embedding of the SWire library (SWire.cpp / SWire.h): the packet
framing codec (readPacket, sendPacket), the client responder callbacks
(receiveEvent, requestEvent), and the master controller operations
(identifyClients, SWireMaster.sendData, SWireClient.sendData).

Bytes are modelled as natural numbers (values below 256); C strings are
null-free byte lists, and the strcpy / strlen truncation at the first NUL is
modelled by the function cstr. Machine xor on char / uint8_t is Nat xor of the
8-bit values. The framer's static parser state is an explicit FramerState
threaded through readPacket; the C function's early return on a complete
frame is modelled by returning the status, the populated output buffer, the
new parser state and the unconsumed remainder of the stream. The one memory
error readPacket can commit (decrementing its write index from 0 to -1 and
storing the NUL terminator out of bounds) is modelled as an explicit error
value of an Except.
-/

namespace SWire

/-- Control byte START = (char)0x82 from SWire.h. -/
def START : Nat := 0x82

/-- Control byte END = (char)0x83 from SWire.h (END is written ENDB here). -/
def ENDB : Nat := 0x83

/-- Control byte ACK = (char)0x86 from SWire.h. -/
def ACK : Nat := 0x86

/-- Control byte READ = (char)0xD2 from SWire.h. -/
def READ : Nat := 0xD2

/-- Control byte NO_DATA = (char)0xB0 from SWire.h. -/
def NO_DATA : Nat := 0xB0

/-- Control byte PING = (char)0xB1 from SWire.h. -/
def PING : Nat := 0xB1

/-- MAX_CLIENTS = 16 from SWire.h. -/
def MAX_CLIENTS : Nat := 16

/-- MAX_MSG_LEN = 16 from SWire.h. -/
def MAX_MSG_LEN : Nat := 16

/-- MAX_CLIENT_QUEUE_SIZE = 20 from SWire.h. -/
def MAX_CLIENT_QUEUE_SIZE : Nat := 20

/-- MAX_MASTER_QUEUE_SIZE = 40 from SWire.h. -/
def MAX_MASTER_QUEUE_SIZE : Nat := 40

/-- The C-string reading of a byte list: everything before the first NUL.
Models what strlen / strcpy see of a buffer. -/
def cstr (l : List Nat) : List Nat := l.takeWhile (fun b => b ≠ 0)

/-- XOR of all bytes of a list, the accumulation pattern of sendPacket's
parity loop (data_parity starts at 0). -/
def xorAll (l : List Nat) : Nat := l.foldl (fun a b => a ^^^ b) 0

/-- The static parser state of readPacket: in_packet, the bytes accumulated
into buf for the current frame (the C index variable equals acc.length), and
the running data_parity. The unused escape_next variable is omitted (it is
written but never read by the C code). -/
structure FramerState where
  in_packet : Bool
  acc : List Nat
  data_parity : Nat
deriving Repr, DecidableEq

/-- The parser state at program start and after every completed frame:
in_packet = 0, index = 0, data_parity = 0. -/
def initFramer : FramerState := ⟨false, [], 0⟩

/-- readPacket from SWire.cpp lines 38-88, as a function of the parser state
and the bytes available from Wire. Returns, at the C function's return
point: the status (0 no packet, 1 valid, -1 parity failure), the contents
written into the caller's buffer (none when the status is 0 and the buffer
is untouched), the parser state left in the statics, and the bytes left
unconsumed in the Wire buffer. The error case is the out-of-bounds write
buf[-1] that the C code performs when a frame terminates with index = 0
(END immediately after START): index-- yields -1 before buf[index] = 0. -/
def readPacket : FramerState → List Nat →
    Except Unit (Int × Option (List Nat) × FramerState × List Nat)
  | s, [] => .ok (0, none, s, [])
  | s, rc :: rest =>
    if rc = START then
      readPacket ⟨true, [], START⟩ rest
    else if s.in_packet = true then
      let p := s.data_parity ^^^ rc
      if rc = ENDB then
        if s.acc = [] then
          .error ()
        else
          .ok (if p &&& 0x7F = 0 then 1 else -1,
               some (cstr s.acc.dropLast), initFramer, rest)
      else
        let acc := s.acc ++ [rc]
        if MAX_MSG_LEN ≤ acc.length then
          .ok (if p &&& 0x7F = 0 then 1 else -1,
               some (cstr acc.dropLast), initFramer, rest)
        else
          readPacket ⟨true, acc, p⟩ rest
    else
      readPacket s rest

/-- sendPacket from SWire.cpp lines 98-121: returns the status (0 when
strlen(message) = 0, else 1) and the bytes written to the bus: START, the
message bytes up to the first NUL, the parity byte
START xor data_parity xor END, then END. -/
def sendPacket (message : List Nat) : Nat × List Nat :=
  let m := cstr message
  if m.isEmpty then (0, [])
  else (1, START :: m ++ [START ^^^ xorAll m ^^^ ENDB, ENDB])

/-- Modelled from the spec: the bounded FIFO message queue of stringQueue.h
(its implementation is not under src/; only SWire.cpp's calls to it are).
Per spec section 4.2 the queue has a fixed capacity, push is a no-op
returning false on a full queue, pop returns the oldest entry. -/
structure StringQueue where
  capacity : Nat
  items : List (List Nat)
deriving Repr, DecidableEq

/-- Modelled from the spec: push returns false and leaves the queue
unchanged when the queue is full, else appends and returns true. -/
def stringQueueAdd (q : StringQueue) (m : List Nat) : StringQueue × Bool :=
  if q.capacity ≤ q.items.length then (q, false)
  else ({ q with items := q.items ++ [m] }, true)

/-- Modelled from the spec: emptiness test of the bounded queue. -/
def stringQueueIsEmpty (q : StringQueue) : Bool := q.items.isEmpty

/-- Modelled from the spec: pop removes and returns the oldest entry,
returning none on an empty queue. -/
def stringQueueRemove (q : StringQueue) : Option (List Nat) × StringQueue :=
  match q.items with
  | [] => (none, q)
  | m :: rest => (some m, { q with items := rest })

/-- The client-side global state touched by the Wire callbacks: the volatile
currentCommand, the two queues _in_messages and _out_messages, the static
parser state of readPacket, and the sticky bufferAlocFailed flag. -/
structure ClientState where
  currentCommand : Nat
  inQ : StringQueue
  outQ : StringQueue
  framer : FramerState
  allocFailed : Bool
deriving Repr, DecidableEq

/-- receiveEvent from SWire.cpp lines 123-144. The uninit argument is the
indeterminate content of the freshly malloc'd MAX_MSG_LEN+1 byte buffer
(none models malloc returning NULL). The C code ignores readPacket's
result, reads buffer[1] into currentCommand, and enqueues the buffer as a
C string unless the command byte is PING, READ or NO_DATA. Returns the new
client state and the bytes readPacket left unconsumed. -/
def receiveEvent (uninit : Option (List Nat)) (s : ClientState)
    (input : List Nat) : Except Unit (ClientState × List Nat) :=
  match uninit with
  | none => .ok ({ s with allocFailed := true }, input)
  | some u =>
    match readPacket s.framer input with
    | .error e => .error e
    | .ok (_result, outOpt, fs, rest) =>
      let buffer : List Nat :=
        match outOpt with
        | some out => out ++ 0 :: u.drop (out.length + 1)
        | none => u
      let cmd := buffer.getD 1 0
      let s1 : ClientState := { s with framer := fs, currentCommand := cmd }
      if cmd ≠ PING ∧ cmd ≠ READ ∧ cmd ≠ NO_DATA then
        .ok ({ s1 with inQ := (stringQueueAdd s1.inQ (cstr buffer)).1 }, rest)
      else
        .ok (s1, rest)

/-- requestEvent from SWire.cpp lines 146-169: answers one master inquiry
from currentCommand and the outbound queue, and unconditionally resets
currentCommand to NO_DATA. Returns the bytes written to the Wire. -/
def requestEvent (s : ClientState) : List Nat × ClientState :=
  if s.currentCommand = NO_DATA then
    ([NO_DATA], { s with currentCommand := NO_DATA })
  else if s.currentCommand ≠ READ then
    ([ACK], { s with currentCommand := NO_DATA })
  else if stringQueueIsEmpty s.outQ then
    ([0], { s with currentCommand := NO_DATA })
  else
    match stringQueueRemove s.outQ with
    | (some m, q) => (cstr m, { s with currentCommand := NO_DATA, outQ := q })
    | (none, _) => ([0], { s with currentCommand := NO_DATA })

/-- SWireClient::sendData from SWire.cpp lines 348-360: allocates a buffer
(allocOk models the malloc outcome), copies data after the leading client
number byte, calls stringQueueAdd ignoring its result, and returns 1.
Returns 0 only when malloc fails. -/
def SWireClient.sendData (allocOk : Bool) (client_number : Nat)
    (outQ : StringQueue) (data : List Nat) : Nat × StringQueue :=
  if allocOk then
    let new_message := client_number :: cstr data
    (1, (stringQueueAdd outQ new_message).1)
  else (0, outQ)

/-- SWireMaster::sendData from SWire.cpp lines 194-209: allocates a buffer
(allocOk models the malloc outcome), builds client_id :: data, transmits it
at once with sendPacket, then does a one byte read-back
Wire.requestFrom(client_id, 1) whose return count is the probe argument;
returns 1 exactly when the probe count is nonzero. The second component is
the byte sequence sendPacket put on the bus. -/
def SWireMaster.sendData (allocOk : Bool) (client_id : Nat)
    (data : List Nat) (probe : Nat) : Nat × List Nat :=
  if allocOk then
    let new_message := client_id :: cstr data
    (if probe ≠ 0 then 1 else 0, (sendPacket new_message).2)
  else (0, [])

/-- The loop body of SWireMaster::identifyClients over the candidate list:
for each id send the PING frame, and when the one byte read-back (resp id,
none when Wire.requestFrom returns 0) equals ACK append the id to the
client table. Returns the transmitted frames and the table. -/
def identifyClientsGo (resp : Nat → Option Nat) :
    List Nat → List (List Nat) × List Nat
  | [] => ([], [])
  | i :: rest =>
    let frame := (sendPacket [i, PING]).2
    let found : List Nat :=
      match resp i with
      | some rc => if rc = ACK then [i] else []
      | none => []
    let r := identifyClientsGo resp rest
    (frame :: r.1, found ++ r.2)

/-- SWireMaster::identifyClients from SWire.cpp lines 246-270: clears the
client table, then loops for (int i = 1; i < MAX_CLIENTS; i++), so over the
candidates 1..MAX_CLIENTS-1. Returns the transmitted PING frames, the
rebuilt client table, and _num_clients. -/
def identifyClients (resp : Nat → Option Nat) :
    List (List Nat) × List Nat × Nat :=
  let r := identifyClientsGo resp (List.range' 1 (MAX_CLIENTS - 1))
  (r.1, r.2, r.2.length)

/-- identifyClients as claim C4 words it (the spec's version, for comparison
with the code's identifyClients): every candidate identifier in
1..MAX_CLIENTS, identifier MAX_CLIENTS = 16 included. -/
def identifyClientsSpec (resp : Nat → Option Nat) :
    List (List Nat) × List Nat × Nat :=
  let ids := List.range' 1 MAX_CLIENTS
  let clients := ids.filter (fun i => resp i == some ACK)
  (ids.map (fun i => (sendPacket [i, PING]).2), clients, clients.length)

/-! Helper lemmas about cstr, xorAll and single readPacket steps. -/

lemma cstr_eq_self {l : List Nat} (h : ∀ b ∈ l, b ≠ 0) : cstr l = l := by
  unfold cstr
  exact List.takeWhile_eq_self_iff.mpr (by simpa using h)

lemma foldl_xor (a : Nat) (l : List Nat) :
    l.foldl (fun x b => x ^^^ b) a = a ^^^ xorAll l := by
  induction l generalizing a with
  | nil => simp [xorAll]
  | cons b t ih =>
      simp only [List.foldl_cons, xorAll] at *
      rw [ih (a ^^^ b), ih (0 ^^^ b), Nat.zero_xor, Nat.xor_assoc]

lemma xorAll_cons (b : Nat) (t : List Nat) : xorAll (b :: t) = b ^^^ xorAll t := by
  have h := foldl_xor (0 ^^^ b) t
  simp only [xorAll, List.foldl_cons]
  rw [h, Nat.zero_xor]
  rfl

lemma xorAll_append (l1 l2 : List Nat) :
    xorAll (l1 ++ l2) = xorAll l1 ^^^ xorAll l2 := by
  simp only [xorAll, List.foldl_append]
  exact foldl_xor _ l2

lemma xorAll_singleton (b : Nat) : xorAll [b] = b := by
  simp [xorAll]

lemma xorAll_lt_128 {l : List Nat} (h : ∀ b ∈ l, b < 128) : xorAll l < 128 := by
  induction l with
  | nil => simp [xorAll]
  | cons b t ih =>
      rw [xorAll_cons]
      have hb : b < 2 ^ 7 := h b (List.mem_cons_self b t)
      have ht : xorAll t < 2 ^ 7 := ih (fun x hx => h x (List.mem_cons_of_mem b hx))
      exact Nat.xor_lt_two_pow hb ht

lemma readPacket_cons (s : FramerState) (rc : Nat) (rest : List Nat) :
    readPacket s (rc :: rest) =
      if rc = START then readPacket ⟨true, [], START⟩ rest
      else if s.in_packet = true then
        if rc = ENDB then
          if s.acc = [] then .error ()
          else .ok (if (s.data_parity ^^^ rc) &&& 0x7F = 0 then 1 else -1,
                    some (cstr s.acc.dropLast), initFramer, rest)
        else
          if MAX_MSG_LEN ≤ (s.acc ++ [rc]).length then
            .ok (if (s.data_parity ^^^ rc) &&& 0x7F = 0 then 1 else -1,
                 some (cstr (s.acc ++ [rc]).dropLast), initFramer, rest)
          else readPacket ⟨true, s.acc ++ [rc], s.data_parity ^^^ rc⟩ rest
      else readPacket s rest := rfl

lemma readPacket_cons_start (s : FramerState) (rest : List Nat) :
    readPacket s (START :: rest) = readPacket ⟨true, [], START⟩ rest := by
  rw [readPacket_cons, if_pos rfl]

lemma readPacket_cons_mid (acc : List Nat) (par rc : Nat) (rest : List Nat)
    (h1 : rc ≠ START) (h2 : rc ≠ ENDB) (h3 : acc.length < 15) :
    readPacket ⟨true, acc, par⟩ (rc :: rest)
      = readPacket ⟨true, acc ++ [rc], par ^^^ rc⟩ rest := by
  rw [readPacket_cons, if_neg h1, if_pos rfl]
  simp only [if_neg h2]
  have hlen : ¬ (MAX_MSG_LEN ≤ (acc ++ [rc]).length) := by
    simp only [List.length_append, List.length_cons, List.length_nil, MAX_MSG_LEN]
    omega
  simp only [if_neg hlen]

lemma readPacket_cons_end (acc : List Nat) (par : Nat) (rest : List Nat)
    (hne : acc ≠ []) :
    readPacket ⟨true, acc, par⟩ (ENDB :: rest)
      = .ok (if (par ^^^ ENDB) &&& 0x7F = 0 then 1 else -1,
             some (cstr acc.dropLast), initFramer, rest) := by
  have hse : ENDB ≠ START := by decide
  rw [readPacket_cons, if_neg hse, if_pos rfl]
  simp [hne]

lemma readPacket_cons_force (acc : List Nat) (par rc : Nat) (rest : List Nat)
    (h1 : rc ≠ START) (h2 : rc ≠ ENDB) (h3 : 15 ≤ acc.length) :
    readPacket ⟨true, acc, par⟩ (rc :: rest)
      = .ok (if (par ^^^ rc) &&& 0x7F = 0 then 1 else -1,
             some (cstr (acc ++ [rc]).dropLast), initFramer, rest) := by
  rw [readPacket_cons, if_neg h1, if_pos rfl]
  simp only [if_neg h2]
  have hlen : MAX_MSG_LEN ≤ (acc ++ [rc]).length := by
    simp only [List.length_append, List.length_cons, List.length_nil, MAX_MSG_LEN]
    omega
  simp only [if_pos hlen]

lemma readPacket_append (Q : List Nat) : ∀ (acc : List Nat) (par : Nat)
    (rest : List Nat), (∀ b ∈ Q, b ≠ START ∧ b ≠ ENDB) →
    acc.length + Q.length ≤ 15 →
    readPacket ⟨true, acc, par⟩ (Q ++ rest)
      = readPacket ⟨true, acc ++ Q, Q.foldl (fun x b => x ^^^ b) par⟩ rest := by
  induction Q with
  | nil => intro acc par rest _ _; simp
  | cons q Q ih =>
      intro acc par rest hB hlen
      have hq := hB q (List.mem_cons_self q Q)
      have hstep := readPacket_cons_mid acc par q (Q ++ rest) hq.1 hq.2
        (by simp only [List.length_cons] at hlen; omega)
      rw [List.cons_append, hstep,
        ih (acc ++ [q]) (par ^^^ q) rest
          (fun b hb => hB b (List.mem_cons_of_mem q hb))
          (by simp only [List.length_append, List.length_cons, List.length_nil,
                List.length_cons] at hlen ⊢; omega)]
      simp [List.append_assoc]

lemma sendPacket_eq (P : List Nat) (h1 : P ≠ []) (h2 : ∀ b ∈ P, b ≠ 0) :
    sendPacket P = (1, START :: P ++ [START ^^^ xorAll P ^^^ ENDB, ENDB]) := by
  unfold sendPacket
  rw [cstr_eq_self h2]
  have : P.isEmpty = false := by
    cases P with
    | nil => exact absurd rfl h1
    | cons a t => rfl
  simp [this]

lemma readPacket_frame (payload : List Nat) (pb : Nat)
    (hB : ∀ b ∈ payload, b ≠ START ∧ b ≠ ENDB)
    (hpb1 : pb ≠ START) (hpb2 : pb ≠ ENDB)
    (hlen : payload.length ≤ 14) :
    readPacket initFramer (START :: (payload ++ [pb, ENDB]))
      = .ok (if (START ^^^ xorAll payload ^^^ pb ^^^ ENDB) &&& 0x7F = 0
               then 1 else -1,
             some (cstr payload), initFramer, []) := by
  rw [readPacket_cons_start]
  have hsplit : payload ++ [pb, ENDB] = (payload ++ [pb]) ++ [ENDB] := by
    simp [List.append_assoc]
  rw [hsplit]
  have hApp := readPacket_append (payload ++ [pb]) [] START [ENDB]
    (by intro b hb
        rcases List.mem_append.mp hb with h | h
        · exact hB b h
        · rcases List.mem_singleton.mp h with rfl
          exact ⟨hpb1, hpb2⟩)
    (by simp only [List.length_nil, List.length_append, List.length_cons]
        omega)
  rw [hApp, List.nil_append,
    readPacket_cons_end (payload ++ [pb]) _ [] (by simp)]
  rw [foldl_xor, xorAll_append, xorAll_singleton, List.dropLast_concat]
  simp [Nat.xor_assoc]

/-- C1 (counterexample): the round trip as claimed fails within the claim's
own bounds. For the payload of fifteen 1 bytes (length 15 ≤ 16, first byte
1 in 1..126) the framer force-terminates when the parity byte lands on
index MAX_MSG_LEN, before END arrives, and reports -1, not 1; for the
payload 5, 0x83 (length 2, first byte 5) the END-valued payload byte
terminates the frame early and the result is -1 with an empty buffer. -/
theorem c1_counterexample :
    readPacket initFramer (sendPacket (List.replicate 15 1)).2
        = .ok (-1, some (List.replicate 15 1), initFramer, [ENDB])
    ∧ readPacket initFramer (sendPacket [5, ENDB]).2
        = .ok (-1, some [], initFramer, [0x87, ENDB])
    ∧ (-1 : Int) ≠ 1 :=
  ⟨rfl, rfl, by decide⟩

lemma payload_facts {P : List Nat} (hbytes : ∀ b ∈ P, 1 ≤ b ∧ b ≤ 127) :
    (∀ b ∈ P, b ≠ 0) ∧ (∀ b ∈ P, b ≠ START ∧ b ≠ ENDB)
    ∧ START ^^^ xorAll P ^^^ ENDB ≠ START
    ∧ START ^^^ xorAll P ^^^ ENDB ≠ ENDB := by
  have h0 : ∀ b ∈ P, b ≠ 0 := fun b hb => by
    have := (hbytes b hb).1; omega
  have hX : xorAll P < 128 := xorAll_lt_128 (fun b hb => by
    have := (hbytes b hb).2; omega)
  have hpbval : START ^^^ xorAll P ^^^ ENDB < 128 := by
    have h1 : START ^^^ xorAll P ^^^ ENDB = xorAll P ^^^ (START ^^^ ENDB) := by
      rw [Nat.xor_comm START, Nat.xor_assoc]
    have h2 : (START ^^^ ENDB : Nat) = 1 := by decide
    have h128 : (128 : Nat) = 2 ^ 7 := by norm_num
    rw [h1, h2]
    rw [h128] at hX ⊢
    exact Nat.xor_lt_two_pow hX (by norm_num)
  refine ⟨h0, ?_, ?_, ?_⟩
  · intro b hb
    have h2 := (hbytes b hb).2
    have hS : (START : Nat) = 130 := rfl
    have hE : (ENDB : Nat) = 131 := rfl
    omega
  · have hS : (START : Nat) = 130 := rfl
    omega
  · have hE : (ENDB : Nat) = 131 := rfl
    omega

/-- C1 (amended): for every payload P of length 1..MAX_MSG_LEN-2 (14) whose
bytes all lie in 1..127 and whose first byte is in 1..126, feeding the byte
sequence produced by sendPacket into readPacket started in its idle state
yields the VALID result 1, reconstructs exactly P in the output buffer,
consumes the whole frame and returns the parser to idle (first conjunct).
The bound 14 is tight: for every length-15 payload with bytes in 1..127
the framer force-terminates on the parity byte, whose arrival pushes the
index to MAX_MSG_LEN before END, and the accumulated parity is then
necessarily the END value, so the status is always INVALID (-1), though
the buffer happens to hold P (second conjunct); for every length-16
payload Q ++ a the buffer is truncated to the first 15 bytes Q, never
exactly P, and the status is VALID exactly when
(START xor the 16 payload bytes) masked to 7 bits is zero (third
conjunct). -/
theorem c1_round_trip :
    (∀ P : List Nat, P ≠ [] →
      P.length ≤ MAX_MSG_LEN - 2 → (∀ b ∈ P, 1 ≤ b ∧ b ≤ 127) →
      P.headD 0 ≤ 126 →
      readPacket initFramer (sendPacket P).2
        = .ok (1, some P, initFramer, []))
    ∧ (∀ P : List Nat, P.length = 15 → (∀ b ∈ P, 1 ≤ b ∧ b ≤ 127) →
      readPacket initFramer (sendPacket P).2
        = .ok (-1, some P, initFramer, [ENDB]))
    ∧ (∀ (Q : List Nat) (a : Nat), Q.length = 15 →
      (∀ x ∈ Q, 1 ≤ x ∧ x ≤ 127) → 1 ≤ a → a ≤ 127 →
      readPacket initFramer (sendPacket (Q ++ [a])).2
        = .ok (if (START ^^^ xorAll (Q ++ [a])) &&& 0x7F = 0 then 1 else -1,
               some Q, initFramer,
               [START ^^^ xorAll (Q ++ [a]) ^^^ ENDB, ENDB])) := by
  refine ⟨?_, ?_, ?_⟩
  · intro P hne hlen hbytes _hhead
    obtain ⟨h0, hBB, hpb1, hpb2⟩ := payload_facts hbytes
    have hlen14 : P.length ≤ 14 := by
      have hm : MAX_MSG_LEN = 16 := rfl
      omega
    have hframe := readPacket_frame P (START ^^^ xorAll P ^^^ ENDB)
      hBB hpb1 hpb2 hlen14
    rw [sendPacket_eq P hne h0]
    simp only [List.cons_append]
    rw [hframe]
    have hzero : START ^^^ xorAll P ^^^ (START ^^^ xorAll P ^^^ ENDB) ^^^ ENDB
        = 0 := by
      rw [Nat.xor_cancel_left, Nat.xor_self]
    rw [hzero, cstr_eq_self h0]
    rfl
  · intro P hlen hbytes
    obtain ⟨h0, hBB, hpb1, hpb2⟩ := payload_facts hbytes
    have hne : P ≠ [] := by
      intro h
      rw [h] at hlen
      simp at hlen
    rw [sendPacket_eq P hne h0]
    simp only [List.cons_append]
    rw [readPacket_cons_start]
    rw [readPacket_append P [] START _ hBB (by simp [hlen])]
    rw [List.nil_append]
    rw [readPacket_cons_force P _ _ _ hpb1 hpb2 (by omega)]
    rw [foldl_xor, List.dropLast_concat, cstr_eq_self h0]
    have hpar : (START ^^^ xorAll P) ^^^ (START ^^^ xorAll P ^^^ ENDB)
        = ENDB := Nat.xor_cancel_left _ _
    rw [hpar]
    rfl
  · intro Q a hQlen hQ ha1 ha2
    have hbytes : ∀ x ∈ Q ++ [a], 1 ≤ x ∧ x ≤ 127 := by
      intro x hx
      rcases List.mem_append.mp hx with h | h
      · exact hQ x h
      · rcases List.mem_singleton.mp h with rfl
        exact ⟨ha1, ha2⟩
    obtain ⟨h0, hBB, hpb1, hpb2⟩ := payload_facts hbytes
    have hne : Q ++ [a] ≠ [] := by simp
    rw [sendPacket_eq (Q ++ [a]) hne h0]
    simp only [List.cons_append]
    rw [readPacket_cons_start]
    have hshape : (Q ++ [a])
        ++ [START ^^^ xorAll (Q ++ [a]) ^^^ ENDB, ENDB]
        = Q ++ (a :: [START ^^^ xorAll (Q ++ [a]) ^^^ ENDB, ENDB]) := by
      simp
    rw [hshape]
    rw [readPacket_append Q [] START _
      (fun x hx => hBB x (List.mem_append_left _ hx)) (by simp [hQlen])]
    rw [List.nil_append]
    have ha : a ∈ Q ++ [a] := by simp
    rw [readPacket_cons_force Q _ a _ (hBB a ha).1 (hBB a ha).2 (by omega)]
    rw [foldl_xor, List.dropLast_concat,
      cstr_eq_self (fun x hx => h0 x (List.mem_append_left _ hx))]
    have hxa : START ^^^ xorAll Q ^^^ a = START ^^^ xorAll (Q ++ [a]) := by
      rw [xorAll_append, xorAll_singleton, Nat.xor_assoc]
    rw [hxa]

/-- C1 (witness): the three conjuncts at concrete payloads: the round trip
at 5, 104, 105; the always-INVALID force-termination at fifteen 2 bytes;
and the length-16 payload of fifteen 1 bytes then 3 whose forced boundary
passes the parity check (result VALID) with the buffer truncated to the
first 15 bytes. -/
theorem c1_round_trip_witness :
    readPacket initFramer (sendPacket [5, 104, 105]).2
        = .ok (1, some [5, 104, 105], initFramer, [])
    ∧ readPacket initFramer (sendPacket (List.replicate 15 2)).2
        = .ok (-1, some (List.replicate 15 2), initFramer, [ENDB])
    ∧ readPacket initFramer (sendPacket (List.replicate 15 1 ++ [3])).2
        = .ok (1, some (List.replicate 15 1), initFramer, [3, ENDB]) := by
  refine ⟨c1_round_trip.1 [5, 104, 105] (by decide) (by decide) (by decide)
      (by decide),
    c1_round_trip.2.1 (List.replicate 15 2) rfl (by decide), ?_⟩
  have h := c1_round_trip.2.2 (List.replicate 15 1) 3 rfl
    (by decide) (by decide) (by decide)
  rw [h]
  rfl

/-- C3 (counterexample): the serializer's parity byte is not the XOR of
START and the payload bytes: for payload with the single byte 1 the emitted
parity byte is 0 while START xor 1 = 0x83 is nonzero. And the framer does
not accept exactly when (START xor payload xor parity) masked to 7 bits is
zero: the frame START, 5, (START xor 5), END satisfies that equation yet
readPacket returns -1, because the code also folds END into the parity. -/
theorem c3_counterexample :
    (sendPacket [1]).2 = [START, 1, 0, ENDB]
    ∧ START ^^^ 1 ≠ 0
    ∧ readPacket initFramer [START, 5, START ^^^ 5, ENDB]
        = .ok (-1, some [5], initFramer, [])
    ∧ (START ^^^ 5 ^^^ (START ^^^ 5)) &&& 0x7F = 0 :=
  ⟨rfl, by decide, rfl, by decide⟩

/-- C3 (amended): the serializer emits a parity byte equal to
START xor payload xor END, and for an END-terminated frame whose payload
and parity byte avoid the START and END values and fit under MAX_MSG_LEN,
the framer accepts exactly when
(START xor payload-bytes xor parity-byte xor END) masked to the low 7 bits
is zero: END is included in both computations. -/
theorem c3_parity :
    (∀ P : List Nat, P ≠ [] → (∀ b ∈ P, b ≠ 0) →
       (sendPacket P).2 = START :: P ++ [START ^^^ xorAll P ^^^ ENDB, ENDB])
    ∧ (∀ (payload : List Nat) (pb : Nat), payload.length ≤ 14 →
        (∀ b ∈ payload, b ≠ START ∧ b ≠ ENDB) → pb ≠ START → pb ≠ ENDB →
        readPacket initFramer (START :: (payload ++ [pb, ENDB]))
          = .ok (if (START ^^^ xorAll payload ^^^ pb ^^^ ENDB) &&& 0x7F = 0
                   then 1 else -1,
                 some (cstr payload), initFramer, [])) := by
  constructor
  · intro P h1 h2
    rw [sendPacket_eq P h1 h2]
  · intro payload pb h1 h2 h3 h4
    exact readPacket_frame payload pb h2 h3 h4 h1

/-- C3 (witness): the amended parity facts at payload 5 and parity byte 4:
the serializer emits parity 4 = START xor 5 xor END, and the frame
START, 5, 4, END is accepted since START xor 5 xor 4 xor END = 0. -/
theorem c3_parity_witness :
    (sendPacket [5]).2 = [START, 5, 4, ENDB]
    ∧ readPacket initFramer (START :: ([5] ++ [4, ENDB]))
        = .ok (1, some [5], initFramer, []) := by
  constructor
  · rw [c3_parity.1 [5] (by decide) (by decide)]
    rfl
  · rw [c3_parity.2 [5] 4 (by decide) (by decide) (by decide) (by decide)]
    rfl

/-- C7: an oversized payload of length MAX_MSG_LEN + 1 (written Q ++ a, b
with Q of length 15): the framer's accumulation is truncated to the first
MAX_MSG_LEN bytes Q ++ a, the forced termination runs the normal frame
boundary code with the parity check over exactly START and those
MAX_MSG_LEN bytes (the result is 1 or -1 by that check alone, not an
unconditional error), the output buffer receives the bytes before the
presumed parity position (the first 15), and the unread tail b, parity,
END stays in the stream. The second conjunct shows a forced termination
that passes the parity check and returns VALID. -/
theorem c7_oversize :
    (∀ (Q : List Nat) (a b : Nat), Q.length = 15 →
      (∀ x ∈ Q, 1 ≤ x ∧ x ≤ 127) → 1 ≤ a → a ≤ 127 → 1 ≤ b → b ≤ 127 →
      readPacket initFramer (sendPacket (Q ++ [a, b])).2
        = .ok (if (START ^^^ xorAll (Q ++ [a])) &&& 0x7F = 0 then 1 else -1,
               some Q, initFramer,
               [b, START ^^^ xorAll (Q ++ [a, b]) ^^^ ENDB, ENDB]))
    ∧ readPacket initFramer (sendPacket (List.replicate 15 1 ++ [3, 1])).2
        = .ok (1, some (List.replicate 15 1), initFramer, [1, 2, ENDB]) := by
  constructor
  · intro Q a b hQlen hQ ha1 ha2 hb1 hb2
    have hS : (START : Nat) = 130 := rfl
    have hE : (ENDB : Nat) = 131 := rfl
    have hne : Q ++ [a, b] ≠ [] := by simp
    have h0 : ∀ x ∈ Q ++ [a, b], x ≠ 0 := by
      intro x hx
      rcases List.mem_append.mp hx with h | h
      · have := (hQ x h).1; omega
      · rcases List.mem_cons.mp h with rfl | h2
        · omega
        · rcases List.mem_cons.mp h2 with rfl | h3
          · omega
          · cases h3
    rw [sendPacket_eq (Q ++ [a, b]) hne h0]
    simp only [List.cons_append]
    rw [readPacket_cons_start]
    have hshape : (Q ++ [a, b])
        ++ [START ^^^ xorAll (Q ++ [a, b]) ^^^ ENDB, ENDB]
        = Q ++ (a :: b :: [START ^^^ xorAll (Q ++ [a, b]) ^^^ ENDB, ENDB]) := by
      simp
    rw [hshape]
    rw [readPacket_append Q [] START _
      (by intro x hx
          have := (hQ x hx).2
          constructor
          · omega
          · omega)
      (by simp [hQlen])]
    rw [List.nil_append]
    rw [readPacket_cons_force Q _ a _ (by omega) (by omega) (by omega)]
    rw [foldl_xor, List.dropLast_concat,
      cstr_eq_self (fun x hx => by have := (hQ x hx).1; omega)]
    have hxa : START ^^^ xorAll Q ^^^ a = START ^^^ xorAll (Q ++ [a]) := by
      rw [xorAll_append, xorAll_singleton, Nat.xor_assoc]
    rw [hxa]
  · rfl

/-- C7 (witness): the general oversize behaviour instantiated at seventeen
bytes, fifteen 1 bytes then 1, 1, where the forced-boundary parity check
fails and the result is -1 with the first 15 bytes delivered. -/
theorem c7_oversize_witness :
    readPacket initFramer (sendPacket (List.replicate 15 1 ++ [1, 1])).2
      = .ok (-1, some (List.replicate 15 1), initFramer, [1, 0, ENDB]) := by
  have h := c7_oversize.1 (List.replicate 15 1) 1 1 rfl
    (by decide) (by decide) (by decide) (by decide) (by decide)
  rw [h]
  rfl

/-- hasEmptyFrame bs holds when somewhere in bs an END byte immediately
follows a START byte, the one stream shape that drives readPacket's write
index to -1. -/
def hasEmptyFrame : List Nat → Bool
  | a :: b :: rest => (a == START && b == ENDB) || hasEmptyFrame (b :: rest)
  | _ => false

lemma hasEmptyFrame_tail {x : Nat} {rest : List Nat}
    (h : hasEmptyFrame (x :: rest) = false) : hasEmptyFrame rest = false := by
  cases rest with
  | nil => rfl
  | cons b t =>
      have := h
      unfold hasEmptyFrame at this
      exact (Bool.or_eq_false_iff.mp this).2

lemma hasEmptyFrame_head {b : Nat} {t : List Nat}
    (h : hasEmptyFrame (START :: b :: t) = false) : b ≠ ENDB := by
  unfold hasEmptyFrame at h
  have h1 := (Bool.or_eq_false_iff.mp h).1
  intro hb
  rw [hb] at h1
  simp at h1

lemma readPacket_safe : ∀ (bs : List Nat) (s : FramerState),
    hasEmptyFrame bs = false →
    (s.in_packet = true → s.acc = [] → ∀ t, bs ≠ ENDB :: t) →
    readPacket s bs ≠ .error () := by
  intro bs
  induction bs with
  | nil => intro s _ _; simp [readPacket]
  | cons rc rest ih =>
      intro s hEF hInv
      rw [readPacket_cons]
      by_cases hS : rc = START
      · rw [if_pos hS]
        apply ih _ (hasEmptyFrame_tail hEF)
        intro _ _ t ht
        subst hS
        cases rest with
        | nil => cases ht
        | cons b t' =>
            have hb : b ≠ ENDB := hasEmptyFrame_head hEF
            injection ht with h1 _
            exact hb h1
      · rw [if_neg hS]
        by_cases hip : s.in_packet = true
        · rw [if_pos hip]
          by_cases hE : rc = ENDB
          · rw [if_pos hE]
            by_cases hacc : s.acc = []
            · exact absurd (by rw [hE]) (hInv hip hacc rest)
            · rw [if_neg hacc]
              simp
          · rw [if_neg hE]
            by_cases hlen : MAX_MSG_LEN ≤ (s.acc ++ [rc]).length
            · rw [if_pos hlen]
              simp
            · rw [if_neg hlen]
              apply ih _ (hasEmptyFrame_tail hEF)
              intro _ hacc
              exact absurd hacc (by simp)
        · rw [if_neg hip]
          apply ih _ (hasEmptyFrame_tail hEF)
          intro h1
          exact absurd h1 hip

/-- C9: readPacket's write index stays in bounds only when at least one
byte arrives between a START and its terminating END. For the stream
START, END from the idle state, the termination code decrements index from
0 to -1 and writes the NUL terminator at buf[-1]: in this total embedding
that is the explicit error branch, and it is reached (first conjunct).
Under the precondition that no END immediately follows a START anywhere in
the stream, the error branch is unreachable from the idle state (second
conjunct). -/
theorem c9_index_bounds :
    readPacket initFramer [START, ENDB] = .error ()
    ∧ ∀ bs : List Nat, hasEmptyFrame bs = false →
        readPacket initFramer bs ≠ .error () := by
  constructor
  · rfl
  · intro bs hbs
    apply readPacket_safe bs initFramer hbs
    intro h
    exact absurd h (by decide)

/-- C9 (witness): the safety half of c9_index_bounds applied to the
concrete stream START, 1, END, which has a byte between START and END and
so parses without the out-of-bounds write; and the error at START, END. -/
theorem c9_index_bounds_witness :
    readPacket initFramer [START, ENDB] = .error ()
    ∧ readPacket initFramer [START, 1, ENDB] ≠ .error () :=
  ⟨c9_index_bounds.1, c9_index_bounds.2 [START, 1, ENDB] (by decide)⟩

/-- A quiescent client state: no pending command, empty bounded queues of
the client capacity, idle parser, no allocation failure recorded. -/
def s0 : ClientState :=
  { currentCommand := NO_DATA,
    inQ := { capacity := MAX_CLIENT_QUEUE_SIZE, items := [] },
    outQ := { capacity := MAX_CLIENT_QUEUE_SIZE, items := [] },
    framer := initFramer,
    allocFailed := false }

/-- C2: receiveEvent does not drop INVALID frames. The stream
START, 5, 65, 127, END is a fully received frame failing the parity check
(readPacket returns -1), yet receiveEvent ignores the result, stores
byte 1 of the reconstructed frame (65) into currentCommand and, since 65
is none of PING, READ, NO_DATA, enqueues the corrupt frame onto the
inbound queue. -/
theorem c2_invalid_frame_processed :
    readPacket initFramer [START, 5, 65, 127, ENDB]
      = .ok (-1, some [5, 65], initFramer, [])
    ∧ receiveEvent (some (List.replicate 17 0)) s0 [START, 5, 65, 127, ENDB]
      = .ok ({ s0 with
               currentCommand := 65,
               inQ := ⟨MAX_CLIENT_QUEUE_SIZE, [[5, 65]]⟩ }, []) :=
  ⟨rfl, rfl⟩

/-- C10: when readPacket returns 0 (here: no bytes available) the output
buffer is never written (first conjunct), yet receiveEvent reads index 1
of the freshly allocated buffer, so currentCommand becomes byte 1 of the
indeterminate malloc content u (second conjunct), and the enqueue decision
follows that indeterminate byte: content 65 everywhere enqueues 17 bytes
of garbage, content PING everywhere enqueues nothing (last conjuncts). -/
theorem c10_uninit_command :
    (∀ fs : FramerState, readPacket fs [] = .ok (0, none, fs, []))
    ∧ (∀ (u : List Nat) (s : ClientState), ∃ s' : ClientState,
        receiveEvent (some u) s [] = .ok (s', [])
        ∧ s'.currentCommand = u.getD 1 0)
    ∧ receiveEvent (some (List.replicate 17 65)) s0 []
        = .ok ({ s0 with
                 currentCommand := 65,
                 inQ := ⟨MAX_CLIENT_QUEUE_SIZE, [List.replicate 17 65]⟩ }, [])
    ∧ receiveEvent (some (List.replicate 17 PING)) s0 []
        = .ok ({ s0 with currentCommand := PING }, []) := by
  refine ⟨fun fs => rfl, ?_, rfl, rfl⟩
  intro u s
  by_cases h : u.getD 1 0 ≠ PING ∧ u.getD 1 0 ≠ READ ∧ u.getD 1 0 ≠ NO_DATA
  · refine ⟨{ s with
              currentCommand := u.getD 1 0,
              inQ := (stringQueueAdd s.inQ (cstr u)).1 }, ?_, rfl⟩
    show receiveEvent (some u) s [] = _
    unfold receiveEvent
    dsimp only [readPacket]
    rw [if_pos h]
  · refine ⟨{ s with currentCommand := u.getD 1 0 }, ?_, rfl⟩
    show receiveEvent (some u) s [] = _
    unfold receiveEvent
    dsimp only [readPacket]
    rw [if_neg h]

/-- The client's outbound queue at its capacity MAX_CLIENT_QUEUE_SIZE. -/
def qFull : StringQueue :=
  { capacity := MAX_CLIENT_QUEUE_SIZE,
    items := List.replicate MAX_CLIENT_QUEUE_SIZE [1] }

/-- C5: SWireClient::sendData does not report a full outbound queue. With
the queue at capacity, stringQueueAdd fails and is a no-op (second
conjunct), yet sendData still returns the success code 1 and the message
is lost (first conjunct) because the C code ignores stringQueueAdd's
return value, contradicting the function's own doc comment. Only the
malloc-failure path returns the failure code 0 (third conjunct). -/
theorem c5_send_queue_full :
    SWireClient.sendData true 5 qFull [120] = (1, qFull)
    ∧ (stringQueueAdd qFull (5 :: cstr [120])).2 = false
    ∧ SWireClient.sendData false 5 qFull [120] = (0, qFull) :=
  ⟨rfl, rfl, rfl⟩

/-- C6: every request event leaves currentCommand = NO_DATA whatever the
state was (first conjunct), and after a PING was recorded the first
request event answers ACK while a second request event with no receive
event in between answers NO_DATA (second conjunct). -/
theorem c6_single_shot :
    (∀ s : ClientState, (requestEvent s).2.currentCommand = NO_DATA)
    ∧ (∀ s : ClientState, s.currentCommand = PING →
        (requestEvent s).1 = [ACK]
        ∧ (requestEvent (requestEvent s).2).1 = [NO_DATA]) := by
  constructor
  · intro s
    unfold requestEvent
    by_cases h1 : s.currentCommand = NO_DATA
    · rw [if_pos h1]
    · rw [if_neg h1]
      by_cases h2 : s.currentCommand ≠ READ
      · rw [if_pos h2]
      · rw [if_neg h2]
        by_cases h3 : stringQueueIsEmpty s.outQ = true
        · rw [if_pos h3]
        · rw [if_neg h3]
          cases hq : stringQueueRemove s.outQ with
          | mk o q => cases o <;> rfl
  · intro s h
    have h1 : ¬ (s.currentCommand = NO_DATA) := by rw [h]; decide
    have h2 : s.currentCommand ≠ READ := by rw [h]; decide
    have hstep : requestEvent s = ([ACK], { s with currentCommand := NO_DATA }) := by
      unfold requestEvent
      rw [if_neg h1, if_pos h2]
    rw [hstep]
    constructor
    · rfl
    · unfold requestEvent
      rw [if_pos rfl]

/-- C6 (witness): the single-shot behaviour at the concrete quiescent
state carrying a pending PING. -/
theorem c6_single_shot_witness :
    (requestEvent { s0 with currentCommand := PING }).1 = [ACK]
    ∧ (requestEvent (requestEvent { s0 with currentCommand := PING }).2).1
        = [NO_DATA] :=
  c6_single_shot.2 { s0 with currentCommand := PING } rfl

/-- C8: SWireMaster::sendData with a successful allocation and a nonzero
client id transmits, immediately and without touching any queue, the
serialized frame of client_id :: data, and returns 1 exactly when the one
byte read-back probe count is nonzero, 0 otherwise. -/
theorem c8_master_send :
    ∀ (client_id : Nat) (data : List Nat) (probe : Nat),
      client_id ≠ 0 → (∀ b ∈ data, b ≠ 0) →
      SWireMaster.sendData true client_id data probe
        = (if probe ≠ 0 then 1 else 0,
           START :: (client_id :: data)
             ++ [START ^^^ xorAll (client_id :: data) ^^^ ENDB, ENDB]) := by
  intro cid data probe hcid hdata
  unfold SWireMaster.sendData
  rw [if_pos rfl, cstr_eq_self hdata]
  show (if probe ≠ 0 then 1 else 0, (sendPacket (cid :: data)).2) = _
  rw [sendPacket_eq (cid :: data) (by simp)
    (by intro b hb
        rcases List.mem_cons.mp hb with rfl | hmem
        · exact hcid
        · exact hdata b hmem)]

/-- C8 (witness): the master send at client id 5, data 104, 105, once with
a probe that returned one byte (success 1) and once with a probe that
returned nothing (failure 0); the same frame goes out both times. -/
theorem c8_master_send_witness :
    SWireMaster.sendData true 5 [104, 105] 1
        = (1, [START, 5, 104, 105, 5, ENDB])
    ∧ SWireMaster.sendData true 5 [104, 105] 0
        = (0, [START, 5, 104, 105, 5, ENDB]) := by
  constructor
  · rw [c8_master_send 5 [104, 105] 1 (by decide) (by decide)]
    rfl
  · rw [c8_master_send 5 [104, 105] 0 (by decide) (by decide)]
    rfl

lemma identifyClientsGo_eq (resp : Nat → Option Nat) :
    ∀ l : List Nat, identifyClientsGo resp l
      = (l.map (fun i => (sendPacket [i, PING]).2),
         l.filter (fun i => resp i == some ACK)) := by
  intro l
  induction l with
  | nil => rfl
  | cons i t ih =>
      unfold identifyClientsGo
      rw [ih]
      simp only [List.map_cons, List.filter_cons]
      cases hr : resp i with
      | none => simp
      | some rc =>
          by_cases hrc : rc = ACK
          · subst hrc
            simp
          · simp [hrc]

/-- C4 (counterexample): the claim includes candidate identifier
MAX_CLIENTS = 16, but the loop for (int i = 1; i < MAX_CLIENTS; i++) stops
at 15. With a bus on which exactly the client with identifier 16 answers
ACK, identifyClients finds nothing, while the claim's reading of the sweep
would find client 16 and return count 1. -/
theorem c4_counterexample :
    (identifyClients (fun i => if i == MAX_CLIENTS then some ACK else none)).2.1
        = []
    ∧ (identifyClients (fun i => if i == MAX_CLIENTS then some ACK else none)).2.2
        = 0
    ∧ (identifyClientsSpec
        (fun i => if i == MAX_CLIENTS then some ACK else none)).2.1
        = [MAX_CLIENTS]
    ∧ (identifyClientsSpec
        (fun i => if i == MAX_CLIENTS then some ACK else none)).2.2
        = 1 :=
  ⟨rfl, rfl, rfl, rfl⟩

/-- C4 (amended): identifyClients sends a PING frame addressed to every
candidate identifier in 1..MAX_CLIENTS-1 (that is 1..15, identifier 16
excluded), reads one byte back from each, rebuilds the freshly cleared
client table as exactly the candidates whose byte equals ACK, in order,
and returns their count. -/
theorem c4_discovery :
    ∀ resp : Nat → Option Nat,
      identifyClients resp
        = ((List.range' 1 15).map (fun i => (sendPacket [i, PING]).2),
           (List.range' 1 15).filter (fun i => resp i == some ACK),
           ((List.range' 1 15).filter (fun i => resp i == some ACK)).length) := by
  intro resp
  unfold identifyClients
  have h15 : MAX_CLIENTS - 1 = 15 := rfl
  rw [h15, identifyClientsGo_eq resp (List.range' 1 15)]

end SWire
